import Mathlib

/-!
# Verification of the step-workflow engine
(`src/Expert/challenge_1_workflow_engine.py`)

Shallow embedding of the `FlowEngine` class and its collaborators.  Python
step instances are identity-compared dictionary keys; we model step identity
by an opaque numeric handle `StepId`.  Python `dict` is modelled by an
association list with overwrite-on-insert (`dictSet`) and first-match lookup
(`dictGet`), which reproduces `d[k] = v` and `d.get(k)` observably.

A step's behaviour (`Step.execute(context) -> str`, possibly mutating the
context and possibly raising) is modelled by a function
`StepId → Ctx → Ctx × Except ε String`: the returned context carries every
mutation the step body performed before returning or raising, and the
`Except` value is either the outcome key or the raised exception.

`FlowEngine.run`'s `while current_step:` loop is modelled fuel-indexed:
`runFrom` returns `RunResult.done` when the loop exits because the current
step became `None` (the Python loop's only exit), `RunResult.raised` when a
step's `execute` raised, and `RunResult.outOfFuel` when the supplied fuel ran
out while the loop was still at some current step.  The engine value is
threaded through the loop and returned, so that (non-)mutation of the
engine's own fields by `run` is observable in the model.
-/

namespace WorkflowEngine

/-- Opaque, identity-comparable handle standing for a Python step instance.
The transition table keys on step identity, which the handle models. -/
abbrev StepId := Nat

/-- Python `d.get(k)` on an association-list model of `dict`: first binding
for the key, if any. -/
def dictGet {α β : Type} [DecidableEq α] : List (α × β) → α → Option β
  | [], _ => none
  | (k', v') :: rest, k => if k' = k then some v' else dictGet rest k

/-- Python `d[k] = v` on an association-list model of `dict`: overwrite the
existing binding in place, else append a new one. -/
def dictSet {α β : Type} [DecidableEq α] : List (α × β) → α → β → List (α × β)
  | [], k, v => [(k, v)]
  | (k', v') :: rest, k, v =>
      if k' = k then (k, v) :: rest else (k', v') :: dictSet rest k v

/-- The `FlowEngine` object state: `flow_map` maps a step to its inner dict
from result key to next step (`none` standing for Python `None`, the
terminal), and `start_step` is the optional start step. -/
structure FlowEngine where
  flow_map : List (StepId × List (String × Option StepId))
  start_step : Option StepId
  deriving DecidableEq, Repr

/-- `FlowEngine.__init__`: empty flow map, no start step. -/
def FlowEngine.init : FlowEngine :=
  { flow_map := [], start_step := none }

/-- `FlowEngine.set_start`. -/
def FlowEngine.set_start (e : FlowEngine) (step : StepId) : FlowEngine :=
  { e with start_step := some step }

/-- `FlowEngine.add_transition`: create the inner dict if absent, then
overwrite the entry for `result_key`. -/
def FlowEngine.add_transition (e : FlowEngine) (from_step : StepId)
    (result_key : String) (to_step : Option StepId) : FlowEngine :=
  let inner := (dictGet e.flow_map from_step).getD []
  { e with flow_map := dictSet e.flow_map from_step (dictSet inner result_key to_step) }

/-- The lookup performed by the body of `FlowEngine.run`:
`self.flow_map.get(current_step, {}).get(result)`.  A missing step, a
missing result key, and an explicit `None` target all yield `none`. -/
def FlowEngine.lookup (e : FlowEngine) (s : StepId) (k : String) : Option StepId :=
  (dictGet ((dictGet e.flow_map s).getD []) k).getD none

/-- Behaviour of the population of steps: given a step identity and the
context, return the context after the step body ran (mutations are retained
even when the step raises) and either the outcome key (`Except.ok`) or the
exception the step raised (`Except.error`). -/
abbrev StepExec (ε Ctx : Type) := StepId → Ctx → Ctx × Except ε String

/-- Observable result of the (fuel-indexed) run loop.  `trace` is the list
of steps whose `execute` was invoked, in order. -/
inductive RunResult (ε Ctx : Type) where
  | done (c : Ctx) (trace : List StepId)
  | raised (err : ε) (c : Ctx) (trace : List StepId)
  | outOfFuel (current : StepId) (c : Ctx) (trace : List StepId)
  deriving DecidableEq, Repr

/-- The `while current_step:` loop of `FlowEngine.run`, fuel-indexed.  The
engine is threaded through unchanged—the loop body only reads `self`—and
returned, so preservation of the engine's configuration is a provable fact
rather than a modelling assumption. -/
def runFrom {ε Ctx : Type} (exec : StepExec ε Ctx) (e : FlowEngine) :
    Nat → Option StepId → Ctx → List StepId → RunResult ε Ctx × FlowEngine
  | _, none, c, tr => (.done c tr, e)
  | 0, some s, c, tr => (.outOfFuel s c tr, e)
  | fuel + 1, some s, c, tr =>
      match exec s c with
      | (c', .error err) => (.raised err c' (tr ++ [s]), e)
      | (c', .ok k) => runFrom exec e fuel (e.lookup s k) c' (tr ++ [s])

/-- `FlowEngine.run(context)`: start the loop at `self.start_step`. -/
def FlowEngine.run {ε Ctx : Type} (e : FlowEngine) (exec : StepExec ε Ctx)
    (fuel : Nat) (c : Ctx) : RunResult ε Ctx × FlowEngine :=
  runFrom exec e fuel e.start_step c []

/-- A single configuration call on a `FlowEngine`, for quantifying over
arbitrary configuration histories. -/
inductive ConfigOp where
  | setStart (step : StepId)
  | addTransition (from_step : StepId) (result_key : String) (to_step : Option StepId)
  deriving DecidableEq, Repr

/-- Apply one configuration call. -/
def applyOp (e : FlowEngine) : ConfigOp → FlowEngine
  | .setStart s => e.set_start s
  | .addTransition s k t => e.add_transition s k t

/-- Engine obtained from a fresh `FlowEngine()` by a sequence of
configuration calls. -/
def configure (ops : List ConfigOp) : FlowEngine :=
  ops.foldl applyOp FlowEngine.init

/-- Whether a configuration call registers a transition for `(s, k)`. -/
def ConfigOp.registers : ConfigOp → StepId → String → Bool
  | .setStart _, _, _ => false
  | .addTransition s' k' _, s, k => s' = s && k' = k

/-- Python truthiness over the value space the source exercises. -/
inductive PyVal where
  | bool (b : Bool)
  | int (n : Int)
  | str (s : String)
  | none
  deriving DecidableEq, Repr

/-- Python `bool(v)` for the modelled values. -/
def PyVal.truthy : PyVal → Bool
  | .bool b => b
  | .int n => n != 0
  | .str s => s != ""
  | .none => false

/-- `StepA.execute`: `return "success" if context.get("data_valid", False)
else "fail"` (the source spells the conditional as an `if` statement; the
`print` side effect is outside the model). -/
def StepA.execute (context : List (String × PyVal)) : String :=
  if ((dictGet context "data_valid").getD (.bool false)).truthy then "success"
  else "fail"

/-- Control-flow shape of a run result: the executed-step trace, the
propagated exception (if any), and the step the loop was still at when fuel
ran out (if any).  The context component is deliberately dropped: the shape
is exactly what the engine itself determines. -/
def RunResult.shape {ε Ctx : Type} : RunResult ε Ctx → List StepId × Option ε × Option StepId
  | .done _ tr => (tr, Option.none, Option.none)
  | .raised err _ tr => (tr, some err, Option.none)
  | .outOfFuel s _ tr => (tr, Option.none, some s)

/-- Whether the run loop exited normally (reached the terminal sentinel). -/
def RunResult.isTerminated {ε Ctx : Type} : RunResult ε Ctx → Bool
  | .done _ _ => true
  | _ => false

/-- Step population whose every step returns the outcome key `k` without
touching the context and without raising. -/
def constExec (k : String) : StepExec Unit Nat :=
  fun _ c => (c, .ok k)

/-- Scenario (self-loop): step `0` transitions to itself on outcome
`"loop"`. -/
def loopEngine : FlowEngine :=
  (FlowEngine.init.set_start 0).add_transition 0 "loop" (some 0)

/-- Scenario (single step): start step `0` wired to terminal on the outcome
`"x"` it returns. -/
def singleEngine : FlowEngine :=
  (FlowEngine.init.set_start 0).add_transition 0 "x" none

/-- Scenario (diamond): start step `0` branches to `1` on `"yes"` and to
`2` on `"no"`; both `1` and `2` are wired to terminal on `"done"`. -/
def diamondEngine : FlowEngine :=
  ((((FlowEngine.init.set_start 0).add_transition 0 "yes" (some 1)).add_transition
      0 "no" (some 2)).add_transition 1 "done" none).add_transition 2 "done" none

/-- Step population for the diamond scenario: step `0` reads the (Boolean)
context and answers `"yes"` or `"no"`; every other step answers `"done"`. -/
def diamondExec : StepExec Unit Bool :=
  fun s c => if s = 0 then (c, .ok (if c then "yes" else "no")) else (c, .ok "done")

/-- Scenario (failing step): step `0` appends to the context log and
returns `"go"`; step `1` appends to the log and then raises `"boom"`. -/
def failExec : StepExec String (List String) :=
  fun s log =>
    if s = 0 then (log ++ ["A ran"], .ok "go")
    else (log ++ ["B started"], .error "boom")

/-- Engine for the failing-step scenario: `0 --"go"--> 1 --"done"--> 2`. -/
def failEngine : FlowEngine :=
  ((FlowEngine.init.set_start 0).add_transition 0 "go" (some 1)).add_transition
    1 "done" (some 2)

/-! ## Dictionary and lookup lemmas -/

/-- Reading an association-list dict after an overwrite. -/
theorem dictGet_dictSet {α β : Type} [DecidableEq α] (d : List (α × β)) (k q : α) (v : β) :
    dictGet (dictSet d k v) q = if k = q then some v else dictGet d q := by
  induction d with
  | nil => simp [dictSet, dictGet]
  | cons hd rest ih =>
      obtain ⟨a, b⟩ := hd
      by_cases hak : a = k
      · subst hak
        simp only [dictSet, if_pos rfl, dictGet]
        split_ifs <;> rfl
      · simp only [dictSet, if_neg hak, dictGet]
        by_cases haq : a = q
        · subst haq
          have : ¬ k = a := fun h => hak h.symm
          simp [dictGet, this]
        · simp [dictGet, haq, ih]

/-- Effect of one `add_transition` on every subsequent lookup: the
registered pair now yields the registered target, every other pair is
unchanged. -/
theorem lookup_add_transition (e : FlowEngine) (s : StepId) (k : String)
    (t : Option StepId) (s' : StepId) (k' : String) :
    (e.add_transition s k t).lookup s' k' =
      if s = s' ∧ k = k' then t else e.lookup s' k' := by
  by_cases hs : s = s' <;> by_cases hk : k = k' <;>
    simp [FlowEngine.add_transition, FlowEngine.lookup, dictGet_dictSet, hs, hk]

/-- `set_start` leaves the transition table untouched. -/
theorem lookup_set_start (e : FlowEngine) (step s : StepId) (k : String) :
    (e.set_start step).lookup s k = e.lookup s k := rfl

/-- A fresh engine has an empty transition table. -/
theorem lookup_init (s : StepId) (k : String) :
    FlowEngine.init.lookup s k = none := rfl

/-! ## Run-loop lemmas -/

/-- The loop exits at once when the current step is `None`, whatever fuel
remains. -/
theorem runFrom_none {ε Ctx : Type} (exec : StepExec ε Ctx) (e : FlowEngine)
    (fuel : Nat) (c : Ctx) (tr : List StepId) :
    runFrom exec e fuel none c tr = (.done c tr, e) := by
  cases fuel <;> rfl

/-- The loop never writes the engine: the engine returned by `runFrom` is
the one passed in. -/
theorem runFrom_engine {ε Ctx : Type} (exec : StepExec ε Ctx) (e : FlowEngine) :
    ∀ (fuel : Nat) (os : Option StepId) (c : Ctx) (tr : List StepId),
      (runFrom exec e fuel os c tr).2 = e := by
  intro fuel
  induction fuel with
  | zero =>
      intro os c tr
      cases os <;> rfl
  | succ n ih =>
      intro os c tr
      cases os with
      | none => rfl
      | some s =>
          show (runFrom exec e (n + 1) (some s) c tr).2 = e
          unfold runFrom
          rcases h : exec s c with ⟨c', r⟩
          cases r with
          | error err => simp
          | ok k => simpa using ih (e.lookup s k) c' (tr ++ [s])

/-- Two engines with the same start step and pointwise-equal lookup tables
drive the loop to the same observable result. -/
theorem runFrom_congr {ε Ctx : Type} (exec : StepExec ε Ctx) (e₁ e₂ : FlowEngine)
    (hlook : ∀ s k, e₁.lookup s k = e₂.lookup s k) :
    ∀ (fuel : Nat) (os : Option StepId) (c : Ctx) (tr : List StepId),
      (runFrom exec e₁ fuel os c tr).1 = (runFrom exec e₂ fuel os c tr).1 := by
  intro fuel
  induction fuel with
  | zero =>
      intro os c tr
      cases os <;> rfl
  | succ n ih =>
      intro os c tr
      cases os with
      | none => rfl
      | some s =>
          show (runFrom exec e₁ (n + 1) (some s) c tr).1 =
            (runFrom exec e₂ (n + 1) (some s) c tr).1
          unfold runFrom
          rcases h : exec s c with ⟨c', r⟩
          cases r with
          | error err => simp
          | ok k => simpa [hlook s k] using ih (e₂.lookup s k) c' (tr ++ [s])

/-- One successful loop iteration: execute the current step, then continue
at the looked-up next step with the step's returned context and the step
appended to the trace. -/
theorem runFrom_ok {ε Ctx : Type} (exec : StepExec ε Ctx) (e : FlowEngine)
    (fuel : Nat) (s : StepId) (c c' : Ctx) (k : String) (tr : List StepId)
    (hok : exec s c = (c', .ok k)) :
    runFrom exec e (fuel + 1) (some s) c tr =
      runFrom exec e fuel (e.lookup s k) c' (tr ++ [s]) := by
  conv_lhs => unfold runFrom
  rw [hok]

/-- Configuration histories that never register `(s, k)` leave its lookup
at the terminal sentinel. -/
theorem lookup_foldl_of_not_registered (s : StepId) (k : String) :
    ∀ (ops : List ConfigOp) (e : FlowEngine),
      (∀ op ∈ ops, op.registers s k = false) → e.lookup s k = none →
      (ops.foldl applyOp e).lookup s k = none := by
  intro ops
  induction ops with
  | nil => intro e _ he; simpa using he
  | cons op rest ih =>
      intro e hops he
      have hop := hops op (List.mem_cons_self op rest)
      have hrest : ∀ op' ∈ rest, op'.registers s k = false :=
        fun op' h' => hops op' (List.mem_cons_of_mem op h')
      rw [List.foldl_cons]
      refine ih (applyOp e op) hrest ?_
      cases op with
      | setStart step => simpa [applyOp, lookup_set_start] using he
      | addTransition s' k' t =>
          have hne : ¬ (s' = s ∧ k' = k) := by
            simpa [ConfigOp.registers] using hop
          simpa [applyOp, lookup_add_transition, hne] using he

/-- If a relation on contexts preserves and is preserved by every step's
observable outcome, related contexts drive the loop to results of the same
control-flow shape. -/
theorem runFrom_shape_congr {ε Ctx : Type} (R : Ctx → Ctx → Prop)
    (exec : StepExec ε Ctx) (e : FlowEngine)
    (hR : ∀ s c₁ c₂, R c₁ c₂ →
      (exec s c₁).2 = (exec s c₂).2 ∧ R (exec s c₁).1 (exec s c₂).1) :
    ∀ (fuel : Nat) (os : Option StepId) (c₁ c₂ : Ctx) (tr : List StepId),
      R c₁ c₂ →
      ((runFrom exec e fuel os c₁ tr).1).shape = ((runFrom exec e fuel os c₂ tr).1).shape := by
  intro fuel
  induction fuel with
  | zero =>
      intro os c₁ c₂ tr hc
      cases os <;> rfl
  | succ m ih =>
      intro os c₁ c₂ tr hc
      cases os with
      | none => rfl
      | some s =>
          obtain ⟨hout, hrel⟩ := hR s c₁ c₂ hc
          show ((runFrom exec e (m + 1) (some s) c₁ tr).1).shape = _
          unfold runFrom
          rcases h₁ : exec s c₁ with ⟨c₁', r₁⟩
          rcases h₂ : exec s c₂ with ⟨c₂', r₂⟩
          rw [h₁, h₂] at hout hrel
          cases hout
          cases r₁ with
          | error err => simp [RunResult.shape]
          | ok k => simpa using ih (e.lookup s k) c₁' c₂' (tr ++ [s]) hrel

-- Quick sanity checks of the embedding against the source's client code.
example :
    (((((FlowEngine.init.set_start 0).add_transition 0 "success" (some 1)).add_transition
        0 "fail" (some 2)).add_transition 1 "done" none).add_transition 2 "done"
        none).lookup 0 "success" = some 1 := rfl

example : StepA.execute [("data_valid", .bool true)] = "success" := rfl
example : StepA.execute [] = "fail" := rfl

/-! ## Claim theorems -/

/-- C1 (counterexample): `run` on a freshly constructed engine, whose start
step was never set, raises nothing at all: it returns normally with an
empty trace (no step's `execute` is invoked).  The source's `run` has no
start-step validation and no ConfigurationError — `current_step` starts as
`None`, so the `while` loop body never runs. -/
theorem unset_start_no_configuration_error_cex :
    FlowEngine.init.start_step = none ∧
    (FlowEngine.init.run (constExec "x") 5 0).1 = RunResult.done 0 [] :=
  ⟨rfl, rfl⟩

/-- C1 (amended): if `run(context)` is invoked on a `FlowEngine` whose
start step was never set, `run` raises no error: it invokes no step's
`execute` and returns normally at once (empty trace, context untouched). -/
theorem run_unset_start_returns_immediately {ε Ctx : Type} (e : FlowEngine)
    (he : e.start_step = none) (exec : StepExec ε Ctx) (fuel : Nat) (c : Ctx) :
    (e.run exec fuel c).1 = RunResult.done c [] := by
  unfold FlowEngine.run
  rw [he, runFrom_none]

/-- C1 (witness for the amended claim at a concrete input). -/
theorem run_unset_start_returns_immediately_witness :
    (FlowEngine.init.run (constExec "y") 7 3).1 = RunResult.done 3 [] :=
  run_unset_start_returns_immediately FlowEngine.init rfl (constExec "y") 7 3

/-- C2: if `(s, k)` was never registered by any configuration call, its
lookup yields the terminal sentinel (`none`), and every run of the engine
is observably identical to a run of the same engine with `(s, k)`
explicitly wired to terminal. -/
theorem missing_transition_terminal (ops : List ConfigOp) (s : StepId) (k : String)
    (hnever : ∀ op ∈ ops, op.registers s k = false) :
    (configure ops).lookup s k = none ∧
    ∀ (ε Ctx : Type) (exec : StepExec ε Ctx) (fuel : Nat) (c : Ctx),
      ((configure ops).run exec fuel c).1 =
        (((configure ops).add_transition s k none).run exec fuel c).1 := by
  have hlook : (configure ops).lookup s k = none :=
    lookup_foldl_of_not_registered s k ops FlowEngine.init hnever (lookup_init s k)
  refine ⟨hlook, ?_⟩
  intro ε Ctx exec fuel c
  have hpt : ∀ s' k', (configure ops).lookup s' k' =
      ((configure ops).add_transition s k none).lookup s' k' := by
    intro s' k'
    rw [lookup_add_transition]
    split_ifs with h
    · obtain ⟨hs, hk⟩ := h
      rw [← hs, ← hk, hlook]
    · rfl
  have hstart : ((configure ops).add_transition s k none).start_step =
      (configure ops).start_step := rfl
  unfold FlowEngine.run
  rw [hstart]
  exact runFrom_congr exec (configure ops) ((configure ops).add_transition s k none)
    hpt fuel (configure ops).start_step c []

/-- C2 (witness): a concrete history never registering `(0, "b")`. -/
theorem missing_transition_terminal_witness :
    (configure [ConfigOp.setStart 0, ConfigOp.addTransition 0 "a" (some 1)]).lookup 0 "b" = none ∧
    ((configure [ConfigOp.setStart 0, ConfigOp.addTransition 0 "a" (some 1)]).run
        (constExec "a") 3 5).1 =
      (((configure [ConfigOp.setStart 0,
          ConfigOp.addTransition 0 "a" (some 1)]).add_transition 0 "b" none).run
        (constExec "a") 3 5).1 :=
  ⟨(missing_transition_terminal
      [ConfigOp.setStart 0, ConfigOp.addTransition 0 "a" (some 1)] 0 "b" (by decide)).1,
   (missing_transition_terminal
      [ConfigOp.setStart 0, ConfigOp.addTransition 0 "a" (some 1)] 0 "b" (by decide)).2
      Unit Nat (constExec "a") 3 5⟩

/-- C3: whenever the loop is at a current step `s` whose `execute` raises
`err` (leaving the context at `c'`), the whole remaining run returns that
same exception unmodified, the trace is extended by the failing step only
(no further step's `execute` is invoked), the result carries exactly the
context `c'` the failing step left behind — every mutation by prior steps
(already inside `c`) and by the failing step is retained, nothing is rolled
back — and the engine itself is untouched. -/
theorem step_exception_propagates {ε Ctx : Type} (exec : StepExec ε Ctx)
    (e : FlowEngine) (fuel : Nat) (s : StepId) (c c' : Ctx) (tr : List StepId)
    (err : ε) (hraise : exec s c = (c', .error err)) :
    runFrom exec e (fuel + 1) (some s) c tr =
      (RunResult.raised err c' (tr ++ [s]), e) := by
  conv_lhs => unfold runFrom
  rw [hraise]

/-- C3 (witness): step `0` runs and mutates the log, step `1` mutates the
log then raises `"boom"`; the raise is returned verbatim with both
mutations in place and step `2` never runs. -/
theorem step_exception_propagates_witness :
    runFrom failExec failEngine (3 + 1) (some 1) ["A ran"] [0] =
      (RunResult.raised "boom" ["A ran", "B started"] [0, 1], failEngine) :=
  step_exception_propagates failExec failEngine 3 1 ["A ran"]
    ["A ran", "B started"] [0] "boom" rfl

/-- C4: re-registering the same `(s, k)` pair raises no error (the
operation is total) and replaces the previous target — subsequent lookups
of `(s, k)` yield the newest target, and every other pair's lookup is
unaffected by the re-registration. -/
theorem reregistration_last_wins (e : FlowEngine) (s : StepId) (k : String)
    (t₁ t₂ : Option StepId) :
    ((e.add_transition s k t₁).add_transition s k t₂).lookup s k = t₂ ∧
    ∀ s' k', ¬ (s = s' ∧ k = k') →
      ((e.add_transition s k t₁).add_transition s k t₂).lookup s' k' =
        (e.add_transition s k t₁).lookup s' k' := by
  constructor
  · rw [lookup_add_transition]
    simp
  · intro s' k' h
    rw [lookup_add_transition, if_neg h]

/-- C4 (witness): overwrite `(0, "x")` from target `1` to target `2`. -/
theorem reregistration_last_wins_witness :
    ((FlowEngine.init.add_transition 0 "x" (some 1)).add_transition 0 "x"
        (some 2)).lookup 0 "x" = some 2 ∧
    ((FlowEngine.init.add_transition 0 "x" (some 1)).add_transition 0 "x"
        (some 2)).lookup 0 "y" =
      (FlowEngine.init.add_transition 0 "x" (some 1)).lookup 0 "y" :=
  ⟨(reregistration_last_wins FlowEngine.init 0 "x" (some 1) (some 2)).1,
   (reregistration_last_wins FlowEngine.init 0 "x" (some 1) (some 2)).2 0 "y"
     (by decide)⟩

/-- Helper for the self-loop scenario: with any fuel `n`, the loop performs
exactly `n` iterations of step `0` and is still at step `0` when fuel runs
out. -/
theorem runFrom_loop (n : Nat) : ∀ (c : Nat) (tr : List StepId),
    runFrom (constExec "loop") loopEngine n (some 0) c tr =
      (RunResult.outOfFuel 0 c (tr ++ List.replicate n 0), loopEngine) := by
  induction n with
  | zero =>
      intro c tr
      simp [runFrom]
  | succ m ih =>
      intro c tr
      rw [runFrom_ok (constExec "loop") loopEngine m 0 c c "loop" tr rfl]
      have hl : loopEngine.lookup 0 "loop" = some 0 := rfl
      rw [hl, ih c (tr ++ [0])]
      simp [List.replicate_succ]

/-- C5: in the self-loop workflow (step `0` returns `"loop"` and
transitions to itself on `"loop"`), `run` never terminates: for every
iteration budget `n`, after `n` iterations the engine is still at step `0`
(the result is `outOfFuel` at step `0` with a trace of `n` executions of
step `0`), and the run has not reached normal termination. -/
theorem self_loop_never_terminates (n c : Nat) :
    (loopEngine.run (constExec "loop") n c).1 =
      RunResult.outOfFuel 0 c (List.replicate n 0) ∧
    ((loopEngine.run (constExec "loop") n c).1).isTerminated = false := by
  have hs : loopEngine.start_step = some 0 := rfl
  unfold FlowEngine.run
  rw [hs, runFrom_loop n c []]
  exact ⟨by simp, by simp [RunResult.isTerminated]⟩

/-- C6: in the diamond workflow, a context making step `0` answer `"yes"`
yields exactly the executed sequence `[0, 1]`, and one making it answer
`"no"` yields exactly `[0, 2]` — for every sufficient fuel budget. -/
theorem diamond_branches (n : Nat) :
    (diamondEngine.run diamondExec (n + 2) true).1 = RunResult.done true [0, 1] ∧
    (diamondEngine.run diamondExec (n + 2) false).1 = RunResult.done false [0, 2] := by
  have hs : diamondEngine.start_step = some 0 := rfl
  constructor
  · unfold FlowEngine.run
    rw [hs, show n + 2 = n + 1 + 1 from rfl,
      runFrom_ok diamondExec diamondEngine (n + 1) 0 true true "yes" [] rfl]
    simp only [List.nil_append]
    rw [show diamondEngine.lookup 0 "yes" = some 1 from rfl,
      runFrom_ok diamondExec diamondEngine n 1 true true "done" [0] rfl,
      show diamondEngine.lookup 1 "done" = none from rfl,
      runFrom_none]
    rfl
  · unfold FlowEngine.run
    rw [hs, show n + 2 = n + 1 + 1 from rfl,
      runFrom_ok diamondExec diamondEngine (n + 1) 0 false false "no" [] rfl]
    simp only [List.nil_append]
    rw [show diamondEngine.lookup 0 "no" = some 2 from rfl,
      runFrom_ok diamondExec diamondEngine n 2 false false "done" [0] rfl,
      show diamondEngine.lookup 2 "done" = none from rfl,
      runFrom_none]
    rfl

/-- C7: in the single-step workflow (start step `0` wired to terminal on
the outcome `"x"` it returns), `run` invokes step `0` exactly once and
terminates normally — for every positive fuel budget. -/
theorem single_step_runs_once (n c : Nat) :
    (singleEngine.run (constExec "x") (n + 1) c).1 = RunResult.done c [0] := by
  have hs : singleEngine.start_step = some 0 := rfl
  unfold FlowEngine.run
  rw [hs, runFrom_ok (constExec "x") singleEngine n 0 c c "x" [] rfl,
    show singleEngine.lookup 0 "x" = none from rfl, runFrom_none]
  rfl

/-- C8: the engine's control flow depends on the context only through the
outcome keys steps return.  For any relation `R` on contexts under which
every step produces the same observable outcome (same key, or same
exception) and `R`-related successor contexts, two `R`-related initial
contexts drive `run` to results of identical control-flow shape: the same
executed step sequence and the same termination/failure behaviour. -/
theorem run_control_flow_context_independent {ε Ctx : Type} (R : Ctx → Ctx → Prop)
    (exec : StepExec ε Ctx) (e : FlowEngine)
    (hR : ∀ s c₁ c₂, R c₁ c₂ →
      (exec s c₁).2 = (exec s c₂).2 ∧ R (exec s c₁).1 (exec s c₂).1)
    (fuel : Nat) (c₁ c₂ : Ctx) (hc : R c₁ c₂) :
    ((e.run exec fuel c₁).1).shape = ((e.run exec fuel c₂).1).shape :=
  runFrom_shape_congr R exec e hR fuel e.start_step c₁ c₂ [] hc

/-- C8 (witness): two distinct contexts under the always-related relation
and a context-oblivious step population give runs of equal shape. -/
theorem run_control_flow_context_independent_witness :
    ((singleEngine.run (constExec "x") 3 0).1).shape =
      ((singleEngine.run (constExec "x") 3 7).1).shape :=
  run_control_flow_context_independent (fun _ _ => True) (constExec "x")
    singleEngine (fun _ _ _ _ => ⟨rfl, trivial⟩) 3 0 7 trivial

/-- C9: `run` never mutates the engine's own configuration: the engine
value after any run call has exactly the `flow_map` and `start_step` it had
before the call. -/
theorem run_preserves_configuration {ε Ctx : Type} (e : FlowEngine)
    (exec : StepExec ε Ctx) (fuel : Nat) (c : Ctx) :
    ((e.run exec fuel c).2).flow_map = e.flow_map ∧
    ((e.run exec fuel c).2).start_step = e.start_step := by
  unfold FlowEngine.run
  rw [runFrom_engine exec e fuel e.start_step c []]
  exact ⟨rfl, rfl⟩

/-- C10: `StepA.execute` answers `"success"` exactly when the context maps
`"data_valid"` to a truthy value, and `"fail"` otherwise — in particular a
context lacking the key entirely yields `"fail"`, not an error (the
function is total). -/
theorem stepA_outcome (context : List (String × PyVal)) :
    (∀ v, dictGet context "data_valid" = some v → v.truthy = true →
      StepA.execute context = "success") ∧
    (∀ v, dictGet context "data_valid" = some v → v.truthy = false →
      StepA.execute context = "fail") ∧
    (dictGet context "data_valid" = none → StepA.execute context = "fail") := by
  refine ⟨?_, ?_, ?_⟩
  · intro v hv ht
    simp [StepA.execute, hv, ht]
  · intro v hv ht
    simp [StepA.execute, hv, ht]
  · intro h
    simp [StepA.execute, h, PyVal.truthy]

/-- C10 (witness): a truthy binding, a falsy binding, and a missing key. -/
theorem stepA_outcome_witness :
    StepA.execute [("data_valid", PyVal.bool true)] = "success" ∧
    StepA.execute [("data_valid", PyVal.int 0)] = "fail" ∧
    StepA.execute [] = "fail" :=
  ⟨(stepA_outcome [("data_valid", PyVal.bool true)]).1 (PyVal.bool true) rfl rfl,
   (stepA_outcome [("data_valid", PyVal.int 0)]).2.1 (PyVal.int 0) rfl rfl,
   (stepA_outcome []).2.2 rfl⟩

end WorkflowEngine
